import Mathlib

/-!
Verification development for the blpt-web administrative console.

The definitions below are shallow embeddings of the TypeScript source:

* `getRolePath`, `getRoleFromPath` — `src/lib/utils.ts`
* `ProtectedRoute`                 — the role-aware guard (`ProtectedRoute` component,
                                     unnamed part_000), together with the plain guard
                                     `ProtectedRouteSimple` from
                                     `src/components/protected-route.tsx`
* `jsReplaceFirst`                 — JavaScript `String.prototype.replace` with a string
                                     pattern (replaces the first occurrence only)
* courses-manager query-state transitions — `src/pages/content-management/courses/courses-manager.tsx`
* `resolveSelectedUser`            — the index-keyed selection resolution of
                                     `src/pages/users-management/all-users.tsx`
* `debounceFires`                  — the single-shot timer semantics of `useDebounce`
                                     (`all-users.tsx`) and the debounce effect of the
                                     courses manager
* `handleCreate`                   — `src/pages/content-management/video-tags.tsx`
* `handleSave` / `handleKeyDown`   — `EditableCell` in `src/components/ui/editable-table.tsx`
* `getNextPageParam` / `pagesFetched` — the infinite users query of `all-users.tsx`
-/

/-- Embeds `getRolePath` from `src/lib/utils.ts` (lines 8–16): a switch over the
role string returning the URL path segment, defaulting to `"app"`. -/
def getRolePath (role : String) : String :=
  if role = "admin" then "super-admin"
  else if role = "trainer" then "training-admin"
  else if role = "trainee" then "clinical-learner"
  else if role = "user" then "individual-learner"
  else "app"

/-- Embeds `getRoleFromPath` from `src/lib/utils.ts` (lines 18–26): a switch over the
path segment returning the role, `none` embedding TypeScript `null`. -/
def getRoleFromPath (path : String) : Option String :=
  if path = "super-admin" then some "admin"
  else if path = "training-admin" then some "trainer"
  else if path = "clinical-learner" then some "trainee"
  else if path = "individual-learner" then some "user"
  else none

/-- The known role enumeration (the non-default cases of `getRolePath`). -/
def knownRoles : List String := ["admin", "trainer", "trainee", "user"]

/-- The range of the role-to-segment mapping on known roles. -/
def knownSegments : List String :=
  ["super-admin", "training-admin", "clinical-learner", "individual-learner"]

/-- JavaScript `role || "user"` (part_000 line 20): a missing or empty role string
falls back to `"user"`. `none` embeds `undefined`/`null`. -/
def jsOrUser (role : Option String) : String :=
  match role with
  | none => "user"
  | some s => if s = "" then "user" else s

/-- JavaScript `String.prototype.replace` with a string pattern, on character lists:
only the first (leftmost) occurrence of `pat` is replaced by `rep`; if `pat` does not
occur the input is returned unchanged. -/
def replaceFirstList (pat rep : List Char) : List Char → List Char
  | [] => if pat = [] then rep else []
  | c :: cs =>
      if pat = (c :: cs).take pat.length then rep ++ (c :: cs).drop pat.length
      else c :: replaceFirstList pat rep cs

/-- JavaScript `s.replace(pat, rep)` for string `pat` (first occurrence only), as used
in part_000 line 24: `location.pathname.replace("/" + currentRolePath, "/" + rolePath)`. -/
def jsReplaceFirst (s pat rep : String) : String :=
  ⟨replaceFirstList pat.data rep.data s.data⟩

/-- The possible render results of a route guard component. -/
inductive GuardResult where
  | loader
  | navigate (dest : String) (replace : Bool)
  | renderChildren
  deriving DecidableEq, Repr

/-- Embeds the role-aware `ProtectedRoute` (unnamed part_000, lines 7–29).
`sessionRole = none` is no session; `some role` is a session whose user has the given
optional `role` field.  `rolePathParam` is the router's `:rolePath` parameter (the
leading path segment of the current URL, when the matched route has one). -/
def ProtectedRoute (isPending : Bool) (sessionRole : Option (Option String))
    (rolePathParam : Option String) (pathname : String) : GuardResult :=
  if isPending && sessionRole.isNone then .loader
  else
    match sessionRole with
    | none => .navigate "/login" false
    | some role =>
        let rolePath := getRolePath (jsOrUser role)
        match rolePathParam with
        | some current =>
            if current ≠ "" ∧ current ≠ rolePath then
              .navigate (jsReplaceFirst pathname ("/" ++ current) ("/" ++ rolePath)) true
            else .renderChildren
        | none => .renderChildren

/-- Embeds the plain `ProtectedRoute` of `src/components/protected-route.tsx`
(lines 6–22): spinner while pending, `/login` when no session, children otherwise. -/
def ProtectedRouteSimple (isPending : Bool) (sessionExists : Bool) : GuardResult :=
  if isPending then .loader
  else if !sessionExists then .navigate "/login" false
  else .renderChildren

/-- Replacing a pattern that the list literally starts with substitutes exactly the
leading pattern and keeps the tail unchanged. -/
theorem replaceFirstList_append (pat rep rest : List Char) :
    replaceFirstList pat rep (pat ++ rest) = rep ++ rest := by
  cases pat with
  | nil =>
      cases rest with
      | nil => simp [replaceFirstList]
      | cons c cs => simp [replaceFirstList]
  | cons p ps =>
      simp [replaceFirstList, List.take_succ_cons, List.drop_succ_cons,
        List.take_left, List.drop_left]

/-- String-level version of `replaceFirstList_append`. -/
theorem jsReplaceFirst_of_leading (pat rep rest : String) :
    jsReplaceFirst (pat ++ rest) pat rep = rep ++ rest := by
  unfold jsReplaceFirst
  rw [String.data_append, replaceFirstList_append]
  cases rep with
  | mk l => cases rest with
    | mk l2 => rfl

/-- C1: with a resolved session whose role maps to segment `S`, and a current URL whose
leading role segment is `R ≠ S`, the guard issues a replace-navigation to the same path
with the leading segment replaced by `S`, the suffix preserved exactly; in particular a
trainer at `/super-admin/users/all` is redirected to `/training-admin/users/all`. -/
theorem protectedRoute_role_mismatch_redirects (role : Option String) (R suffix : String)
    (hR : R ≠ "") (hneq : R ≠ getRolePath (jsOrUser role)) :
    ProtectedRoute false (some role) (some R) ("/" ++ R ++ suffix)
      = .navigate ("/" ++ getRolePath (jsOrUser role) ++ suffix) true := by
  have h1 : ProtectedRoute false (some role) (some R) ("/" ++ R ++ suffix)
      = if R ≠ "" ∧ R ≠ getRolePath (jsOrUser role) then
          .navigate (jsReplaceFirst ("/" ++ R ++ suffix) ("/" ++ R)
            ("/" ++ getRolePath (jsOrUser role))) true
        else .renderChildren := rfl
  rw [h1, if_pos ⟨hR, hneq⟩, jsReplaceFirst_of_leading]

/-- Witness for C1: the concrete trainer scenario from the specification. -/
theorem protectedRoute_role_mismatch_redirects_witness :
    ProtectedRoute false (some (some "trainer")) (some "super-admin")
        ("/" ++ "super-admin" ++ "/users/all")
      = .navigate ("/" ++ getRolePath (jsOrUser (some "trainer")) ++ "/users/all") true :=
  protectedRoute_role_mismatch_redirects (some "trainer") "super-admin" "/users/all"
    (by decide) (by decide)

/-- C2: once the session is resolved to absent (pending false, no session), both guard
variants render a redirect to `/login` and never the protected children. -/
theorem protectedRoute_absent_session_login :
    (∀ (rolePathParam : Option String) (pathname : String),
        ProtectedRoute false none rolePathParam pathname = .navigate "/login" false)
    ∧ ProtectedRouteSimple false false = .navigate "/login" false
    ∧ (GuardResult.navigate "/login" false ≠ .renderChildren) := by
  refine ⟨fun rolePathParam pathname => rfl, rfl, by decide⟩

/-- C3: round-trip stability of the role/segment mapping on the known enumeration,
and bijectivity onto the four known segments: mapping the known roles yields exactly
the four segments with no duplicates, and `getRoleFromPath` inverts `getRolePath`. -/
theorem roleMapping_roundTrip :
    knownRoles.map getRolePath = knownSegments
    ∧ (knownRoles.map getRolePath).Nodup
    ∧ (knownRoles.all fun r =>
        decide ((getRoleFromPath (getRolePath r)).map getRolePath = some (getRolePath r)))
        = true
    ∧ (knownRoles.all fun r => decide (getRoleFromPath (getRolePath r) = some r)) = true := by
  decide

/-- C4: every role string outside the known enumeration maps to the default segment
`"app"`, and every segment outside the mapping's range maps back to no role. -/
theorem roleMapping_defaults :
    (∀ role : String, role ∉ knownRoles → getRolePath role = "app")
    ∧ (∀ seg : String, seg ∉ knownSegments → getRoleFromPath seg = none) := by
  constructor
  · intro role h
    simp only [knownRoles, List.mem_cons, List.not_mem_nil, or_false, not_or] at h
    obtain ⟨h1, h2, h3, h4⟩ := h
    simp [getRolePath, h1, h2, h3, h4]
  · intro seg h
    simp only [knownSegments, List.mem_cons, List.not_mem_nil, or_false, not_or] at h
    obtain ⟨h1, h2, h3, h4⟩ := h
    simp [getRoleFromPath, h1, h2, h3, h4]

/-- Witness for C4 at a concrete unknown role and segment. -/
theorem roleMapping_defaults_witness :
    getRolePath "guest" = "app" ∧ getRoleFromPath "guest" = none :=
  ⟨roleMapping_defaults.1 "guest" (by decide), roleMapping_defaults.2 "guest" (by decide)⟩

/-- A committed inline edit, reported to the parent table. Embeds the arguments of the
`updateData` callback of `EditableCell` (`src/components/ui/editable-table.tsx`). -/
structure UpdateCall where
  rowIndex : Nat
  columnId : String
  value : String
  deriving DecidableEq, Repr

/-- The local state of an `EditableCell`: the current input value and whether the cell
is in edit state. -/
structure CellState where
  value : String
  isEditing : Bool
  deriving DecidableEq, Repr

/-- Keyboard keys distinguished by `handleKeyDown` of `EditableCell`. -/
inductive CellKey where
  | enter
  | escape
  | tab
  | other
  deriving DecidableEq, Repr

/-- Embeds `handleSave` of `EditableCell` (editable-table.tsx lines 46–49): calls
`updateData(row.index, column.id, value)` and leaves edit state. Also the `onBlur`
handler, which is `handleSave` itself (line 75). -/
def handleSave (rowIndex : Nat) (columnId : String) (s : CellState) :
    CellState × Option UpdateCall :=
  ({ s with isEditing := false }, some ⟨rowIndex, columnId, s.value⟩)

/-- Embeds `handleKeyDown` of `EditableCell` (editable-table.tsx lines 51–61): Enter
and Tab commit via `handleSave`; Escape restores the original value and leaves edit
state without committing. -/
def handleKeyDown (initialValue : String) (rowIndex : Nat) (columnId : String)
    (key : CellKey) (s : CellState) : CellState × Option UpdateCall :=
  match key with
  | .enter => handleSave rowIndex columnId s
  | .escape => ({ value := initialValue, isEditing := false }, none)
  | .tab => handleSave rowIndex columnId s
  | .other => (s, none)

/-- C9: from edit state holding value `v` over original `v0`, committing via blur
(`handleSave`), Enter, or Tab emits exactly one update call carrying the row index,
column id and `v` and returns to display state; Escape returns to display state
showing `v0` and emits no update call. -/
theorem editableCell_commit_escape (v v0 columnId : String) (rowIndex : Nat) :
    handleSave rowIndex columnId ⟨v, true⟩ = (⟨v, false⟩, some ⟨rowIndex, columnId, v⟩)
    ∧ handleKeyDown v0 rowIndex columnId .enter ⟨v, true⟩
        = (⟨v, false⟩, some ⟨rowIndex, columnId, v⟩)
    ∧ handleKeyDown v0 rowIndex columnId .tab ⟨v, true⟩
        = (⟨v, false⟩, some ⟨rowIndex, columnId, v⟩)
    ∧ handleKeyDown v0 rowIndex columnId .escape ⟨v, true⟩ = (⟨v0, false⟩, none) :=
  ⟨rfl, rfl, rfl, rfl⟩

/-- JavaScript `String.prototype.toLowerCase` for the ASCII range, as used on tag
names in video-tags.tsx line 120. -/
def jsToLower (s : String) : String :=
  ⟨s.data.map Char.toLower⟩

/-- JavaScript `String.prototype.trim`: strips leading and trailing whitespace. -/
def jsTrim (s : String) : String :=
  ⟨((s.data.dropWhile Char.isWhitespace).reverse.dropWhile Char.isWhitespace).reverse⟩

/-- A tag already loaded on the video-tags screen (the fields used by `handleCreate`). -/
structure Tag where
  id : String
  name : String
  deriving DecidableEq, Repr

/-- Outcome of submitting the new-tag form. `requested name` means
`createMutation.mutate(name)` was dispatched to the network. -/
inductive CreateOutcome where
  | rejectedEmpty
  | rejectedDuplicate
  | requested (name : String)
  deriving DecidableEq, Repr

/-- Embeds `handleCreate` of `src/pages/content-management/video-tags.tsx`
(lines 116–127): an empty trimmed name returns silently; a case-insensitive duplicate
of a loaded tag name is rejected with an inline error; otherwise the create mutation
is dispatched with the trimmed name. -/
def handleCreate (tags : List Tag) (newTagName : String) : CreateOutcome :=
  if jsTrim newTagName = "" then .rejectedEmpty
  else if tags.any fun t => jsToLower t.name = jsToLower (jsTrim newTagName) then
    .rejectedDuplicate
  else .requested (jsTrim newTagName)

/-- C8: a submitted tag name that is case-insensitively equal (after trimming) to a
loaded tag's name never reaches the network (for a non-empty trimmed name it is the
inline duplicate rejection), and the create mutation is dispatched only when the
trimmed name is non-empty and no such duplicate exists, carrying the trimmed name. -/
theorem videoTags_create_duplicate_rejected (tags : List Tag) (newTagName : String) :
    ((∃ t ∈ tags, jsToLower t.name = jsToLower (jsTrim newTagName)) →
        ∀ m, handleCreate tags newTagName ≠ .requested m)
    ∧ (jsTrim newTagName ≠ "" →
        (∃ t ∈ tags, jsToLower t.name = jsToLower (jsTrim newTagName)) →
        handleCreate tags newTagName = .rejectedDuplicate)
    ∧ (∀ m, handleCreate tags newTagName = .requested m →
        m = jsTrim newTagName ∧ jsTrim newTagName ≠ ""
        ∧ ∀ t ∈ tags, jsToLower t.name ≠ jsToLower (jsTrim newTagName)) := by
  refine ⟨?_, ?_, ?_⟩
  · intro hdup m
    unfold handleCreate
    by_cases he : jsTrim newTagName = ""
    · simp [he]
    · have hany : (tags.any fun t => jsToLower t.name = jsToLower (jsTrim newTagName))
          = true := by
        simp only [List.any_eq_true, decide_eq_true_eq]
        exact hdup
      simp [he, hany]
  · intro he hdup
    have hany : (tags.any fun t => jsToLower t.name = jsToLower (jsTrim newTagName))
        = true := by
      simp only [List.any_eq_true, decide_eq_true_eq]
      exact hdup
    unfold handleCreate
    simp [he, hany]
  · intro m hm
    unfold handleCreate at hm
    by_cases he : jsTrim newTagName = ""
    · simp [he] at hm
    · by_cases hany : (tags.any fun t => jsToLower t.name = jsToLower (jsTrim newTagName))
          = true
      · simp [he, hany] at hm
      · simp [he, hany] at hm
        refine ⟨hm.symm, he, ?_⟩
        intro t ht
        simp only [List.any_eq_true, decide_eq_true_eq, not_exists] at hany
        intro hoeq
        exact hany t ⟨ht, hoeq⟩

/-- Witness for C8: the duplicate " anatomy " against a loaded tag named "Anatomy" is
rejected client-side. -/
theorem videoTags_create_duplicate_rejected_witness :
    handleCreate [⟨"t1", "Anatomy"⟩] " anatomy " = .rejectedDuplicate :=
  (videoTags_create_duplicate_rejected [⟨"t1", "Anatomy"⟩] " anatomy ").2.1
    (by decide) ⟨⟨"t1", "Anatomy"⟩, by decide, by decide⟩

/-- The query state of the courses manager (`courses-manager.tsx` lines 148–158):
search input, debounced search, status filter, sort, single selection, page, limit. -/
structure CoursesQueryState where
  search : String
  debouncedSearch : String
  status : String
  sortBy : String
  sortOrder : String
  selectedId : Option String
  page : Nat
  limit : Nat
  deriving DecidableEq, Repr

/-- The settled debounce timer of the courses manager (lines 161–167): promotes
`search` to `debouncedSearch` and resets the page to 1; the selection-clearing effect
with dependencies `[status, debouncedSearch, page]` (lines 170–172) then clears the
selection when either of those state fields actually changed (React skips the re-render
when both `setDebouncedSearch` and `setPage` receive the current values). -/
def applyDebounceFire (s : CoursesQueryState) : CoursesQueryState :=
  if s.debouncedSearch = s.search ∧ s.page = 1 then s
  else { s with debouncedSearch := s.search, page := 1, selectedId := none }

/-- A status-filter change (`onValueChange={setStatus}`, courses-manager.tsx line 272):
only the status is written; `status` is a dependency of the selection-clearing effect,
so the selection is cleared, but no handler touches the page number. -/
def applyStatusChange (s : CoursesQueryState) (v : String) : CoursesQueryState :=
  if v = s.status then s
  else { s with status := v, selectedId := none }

/-- A page-size change (courses-manager.tsx lines 470–476): sets the limit and resets
the page to 1; `limit` is not a dependency of the selection-clearing effect, so the
selection is cleared only when the page number actually changed. -/
def applyLimitChange (s : CoursesQueryState) (v : Nat) : CoursesQueryState :=
  if v = s.limit ∧ s.page = 1 then s
  else { s with limit := v, page := 1,
                selectedId := if s.page = 1 then s.selectedId else none }

/-- Counterexample to C5: in the courses manager, changing the status filter while on
page 3 leaves the page number at 3 — a filter change does not reset the page to 1. -/
theorem coursesManager_statusChange_keeps_page :
    (applyStatusChange
        ⟨"", "", "published", "createdAt", "desc", some "c1", 3, 10⟩ "draft").page = 3
    ∧ (3 : Nat) ≠ 1 := by
  decide

/-- C5 (amended): in the courses manager, promoting the debounced search term or
changing the page size resets the page to 1, and a change to the status filter or to
the debounced search term clears the row selection (via the effect keyed on status,
debounced search and page) — but a status-filter change leaves the page number
unchanged. -/
theorem coursesManager_query_state_resets :
    (∀ s : CoursesQueryState, (applyDebounceFire s).page = 1)
    ∧ (∀ (s : CoursesQueryState) (v : Nat), (applyLimitChange s v).page = 1)
    ∧ (∀ (s : CoursesQueryState) (v : String), v ≠ s.status →
        (applyStatusChange s v).selectedId = none
        ∧ (applyStatusChange s v).page = s.page)
    ∧ (∀ s : CoursesQueryState, s.debouncedSearch ≠ s.search →
        (applyDebounceFire s).selectedId = none) := by
  refine ⟨?_, ?_, ?_, ?_⟩
  · intro s
    unfold applyDebounceFire
    by_cases h : s.debouncedSearch = s.search ∧ s.page = 1
    · simp [h, h.2]
    · simp [h]
  · intro s v
    unfold applyLimitChange
    by_cases h : v = s.limit ∧ s.page = 1
    · simp [h, h.2]
    · simp [h]
  · intro s v hv
    unfold applyStatusChange
    simp [hv]
  · intro s h
    unfold applyDebounceFire
    have : ¬(s.debouncedSearch = s.search ∧ s.page = 1) := fun hc => h hc.1
    simp [this]

/-- Witness for C5 (amended) at a concrete query state. -/
theorem coursesManager_query_state_resets_witness :
    (applyStatusChange
        ⟨"", "", "published", "createdAt", "desc", some "c1", 3, 10⟩ "draft").selectedId
      = none
    ∧ (applyDebounceFire
        ⟨"anat", "", "published", "createdAt", "desc", some "c1", 3, 10⟩).selectedId
      = none :=
  ⟨(coursesManager_query_state_resets.2.2.1
      ⟨"", "", "published", "createdAt", "desc", some "c1", 3, 10⟩ "draft" (by decide)).1,
    coursesManager_query_state_resets.2.2.2
      ⟨"anat", "", "published", "createdAt", "desc", some "c1", 3, 10⟩ (by decide)⟩

/-- A fetched user row on the all-users screen (the fields used by selection
resolution). -/
structure AppUser where
  id : String
  name : String
  deriving DecidableEq, Repr

/-- Embeds the delete-button handler of `all-users.tsx` (lines 439–448): the table has
no `getRowId`, so TanStack Table keys `rowSelection` by row index; the handler takes
the first selection key and resolves it as `flatUsers[parseInt(selectedIndex)]`. The
selection keys are modelled after `parseInt`, as indices. -/
def resolveSelectedUser (flatUsers : List AppUser) (selectionKeys : List Nat) :
    Option AppUser :=
  match selectionKeys with
  | [] => none
  | idx :: _ => flatUsers.get? idx

/-- A fetched course row (the `_id` field drives selection in the courses manager). -/
structure Course where
  mongoId : String
  title : String
  deriving DecidableEq, Repr

/-- Resolving a course by its stable `_id` selection key, as the courses manager does
(`selectedId === course._id`, courses-manager.tsx lines 387–393, and
`deleteMutation.mutate(selectedId)` line 232). -/
def findCourseById (courses : List Course) (id : String) : Option Course :=
  courses.find? fun c => c.mongoId == id

/-- Counterexample to C6: on the all-users screen the same selection key `0` resolves
to different users when the fetched rows are re-ordered, so selection is keyed by row
index, not by a stable entity identifier. -/
theorem allUsers_selection_depends_on_order :
    resolveSelectedUser [⟨"u1", "Alice"⟩, ⟨"u2", "Bob"⟩] [0] = some ⟨"u1", "Alice"⟩
    ∧ resolveSelectedUser [⟨"u2", "Bob"⟩, ⟨"u1", "Alice"⟩] [0] = some ⟨"u2", "Bob"⟩
    ∧ (⟨"u1", "Alice"⟩ : AppUser) ≠ ⟨"u2", "Bob"⟩ := by
  refine ⟨rfl, rfl, by decide⟩

/-- C6 (amended): id-keyed selection, as used by the courses manager, resolves to the
same entity under any re-ordering of rows with distinct ids; but the index-keyed
selection of the all-users screen (no `getRowId`) is order-dependent. -/
theorem selection_key_stability :
    (∀ (l l2 : List Course) (id : String), l.Perm l2 →
        ((l.map Course.mongoId).Nodup) →
        findCourseById l id = findCourseById l2 id)
    ∧ (∃ (users users2 : List AppUser) (keys : List Nat), users.Perm users2
        ∧ resolveSelectedUser users keys ≠ resolveSelectedUser users2 keys) := by
  constructor
  · intro l l2 id hperm hnodup
    unfold findCourseById
    cases hfind : l.find? fun c => c.mongoId == id with
    | none =>
        rw [List.find?_eq_none] at hfind
        rw [eq_comm, List.find?_eq_none]
        intro c hc
        exact hfind c (hperm.mem_iff.mpr hc)
    | some c =>
        have hc_mem : c ∈ l := List.mem_of_find?_eq_some hfind
        have hc_id := List.find?_some hfind
        cases hfind2 : l2.find? fun x => x.mongoId == id with
        | none =>
            rw [List.find?_eq_none] at hfind2
            exact absurd hc_id (hfind2 c (hperm.mem_iff.mp hc_mem))
        | some c2 =>
            have hc2_mem : c2 ∈ l := hperm.mem_iff.mpr (List.mem_of_find?_eq_some hfind2)
            have hc2_id := List.find?_some hfind2
            have heq : c = c2 := by
              have hinj := List.inj_on_of_nodup_map hnodup
              exact hinj hc_mem hc2_mem
                (by rw [beq_iff_eq] at hc_id hc2_id; rw [hc_id, hc2_id])
            rw [heq]
  · exact ⟨[⟨"u1", "Alice"⟩, ⟨"u2", "Bob"⟩], [⟨"u2", "Bob"⟩, ⟨"u1", "Alice"⟩], [0],
      List.Perm.swap _ _ _, by decide⟩

/-- Witness for C6 (amended): a concrete permutation of two courses resolved by id. -/
theorem selection_key_stability_witness :
    findCourseById [⟨"c1", "Intro"⟩, ⟨"c2", "Advanced"⟩] "c2"
      = findCourseById [⟨"c2", "Advanced"⟩, ⟨"c1", "Intro"⟩] "c2" :=
  selection_key_stability.1 [⟨"c1", "Intro"⟩, ⟨"c2", "Advanced"⟩]
    [⟨"c2", "Advanced"⟩, ⟨"c1", "Intro"⟩] "c2" (List.Perm.swap _ _ _) (by decide)

/-- The time at which the pending debounce timer of the current keystroke is cleared:
the next keystroke (which re-runs the `useDebounce` effect, whose cleanup calls
`clearTimeout`, all-users.tsx lines 97–104) or the component teardown, whichever is
first; `none` when neither occurs. -/
def clearTime (next unmount : Option Nat) : Option Nat :=
  match next, unmount with
  | none, none => none
  | none, some u => some u
  | some t, none => some t
  | some t, some u => some (min t u)

/-- The effective query-state transitions produced by `useDebounce` on a keystroke
trace. Each keystroke `(t, v)` schedules a single-shot timer for `t + delay`; it fires
(promoting `v`) only if it is not cleared first by the next keystroke or by unmount.
Returned are the `(fire time, promoted value)` pairs, in order. -/
def debounceFires (delay : Nat) (unmount : Option Nat) : List (Nat × String) → List (Nat × String)
  | [] => []
  | (t, v) :: rest =>
      let fired : Bool :=
        match clearTime (rest.head?.map Prod.fst) unmount with
        | none => true
        | some c => decide (t + delay < c)
      (if fired then [(t + delay, v)] else []) ++ debounceFires delay unmount rest

/-- Inner lemma for C7: with no unmount, a keystroke trace whose consecutive gaps are
all below `delay` produces exactly one fire, at `delay` after the last keystroke,
carrying the last value. -/
theorem debounceFires_single (delay t : Nat) (v : String) (ks : List (Nat × String))
    (hgaps : List.Chain (fun a b => b.1 < a.1 + delay) (t, v) ks) :
    debounceFires delay none ((t, v) :: ks)
      = [((((t, v) :: ks).getLastD (t, v)).1 + delay, (((t, v) :: ks).getLastD (t, v)).2)] := by
  induction ks generalizing t v with
  | nil => simp [debounceFires, clearTime]
  | cons hd tl ih =>
      obtain ⟨t2, v2⟩ := hd
      obtain ⟨hlt, hchain⟩ := List.chain_cons.mp hgaps
      have hnotfire : ¬(t + delay < t2) := by
        simp only at hlt
        omega
      have hstep : debounceFires delay none ((t, v) :: (t2, v2) :: tl)
          = debounceFires delay none ((t2, v2) :: tl) := by
        simp [debounceFires, clearTime, hnotfire]
      rw [hstep, ih t2 v2 hchain]
      simp only [List.getLastD_cons]

/-- Inner lemma for C7: with teardown at time `u`, every fire happens strictly before
`u` — the cleanup prevents any transition after unmount. -/
theorem debounceFires_before_unmount (delay u : Nat) (ks : List (Nat × String)) :
    ∀ x ∈ debounceFires delay (some u) ks, x.1 < u := by
  induction ks with
  | nil =>
      intro x hx
      simp [debounceFires] at hx
  | cons hd tl ih =>
      intro x hx
      obtain ⟨t, v⟩ := hd
      simp only [debounceFires, List.mem_append] at hx
      cases hx with
      | inl hfire =>
          cases hnext : (tl.head?.map Prod.fst) with
          | none =>
              simp [clearTime, hnext] at hfire
              obtain ⟨hcond, hxval⟩ := hfire
              subst hxval
              exact hcond
          | some t2 =>
              simp [clearTime, hnext] at hfire
              obtain ⟨hcond, hxval⟩ := hfire
              subst hxval
              omega
      | inr hrec => exact ih x hrec

/-- C7: for a non-empty keystroke trace whose inter-keystroke gaps are each below the
debounce interval, exactly one effective transition occurs, `delay` after the final
keystroke and carrying the final typed term; and with a teardown at time `u`, the
cleared timer never fires at or after `u`. -/
theorem debounce_single_transition (delay : Nat) :
    (∀ (t : Nat) (v : String) (ks : List (Nat × String)),
        List.Chain (fun a b => b.1 < a.1 + delay) (t, v) ks →
        debounceFires delay none ((t, v) :: ks)
          = [((((t, v) :: ks).getLastD (t, v)).1 + delay,
              (((t, v) :: ks).getLastD (t, v)).2)])
    ∧ (∀ (u : Nat) (ks : List (Nat × String)),
        ∀ x ∈ debounceFires delay (some u) ks, x.1 < u) :=
  ⟨fun t v ks h => debounceFires_single delay t v ks h,
    fun u ks x hx => debounceFires_before_unmount delay u ks x hx⟩

/-- Witness for C7: five keystrokes typed 100 ms apart with a 500 ms debounce produce
the single transition `(900, "abcde")`; and a fire produced before a teardown at
1000 ms indeed happens before the teardown. -/
theorem debounce_single_transition_witness :
    debounceFires 500 none [(0, "a"), (100, "ab"), (200, "abc"), (300, "abcd"), (400, "abcde")]
      = [(900, "abcde")]
    ∧ ((500 : Nat), "a").1 < 1000 := by
  constructor
  · have h := (debounce_single_transition 500).1 0 "a"
      [(100, "ab"), (200, "abc"), (300, "abcd"), (400, "abcde")] (by simp [List.chain_cons])
    rw [h]
    decide
  · exact (debounce_single_transition 500).2 1000 [(0, "a")] ((500 : Nat), "a") (by decide)

/-- Embeds `getNextPageParam` of the all-users infinite query (all-users.tsx lines
208–211): `nextOffset = allPages.length * 10`, returned as the next page parameter
exactly when it is below the most recent page's reported total. `total` is
`lastPage.total`, `numPages` is `allPages.length`. -/
def getNextPageParam (total numPages : Nat) : Option Nat :=
  let nextOffset := numPages * 10
  if nextOffset < total then some nextOffset else none

/-- Fetch-to-exhaustion loop: starting from `k` fetched pages, keep fetching while
`getNextPageParam` reports a next page (each page reports the same server total);
returns the final number of fetched pages. Fuel-based; `total` fuel suffices. -/
def fetchAux (total : Nat) : Nat → Nat → Nat
  | 0, k => k
  | fuel + 1, k =>
      match getNextPageParam total k with
      | none => k
      | some _ => fetchAux total fuel (k + 1)

/-- The number of pages the infinite query fetches for a fixed server total: the
initial page (`initialPageParam: 0`) is always fetched, then the loop continues while
a next page is reported. -/
def pagesFetched (total : Nat) : Nat := fetchAux total total 1

/-- The fuel-indexed loop computes `max k ⌈total/10⌉` once the fuel covers the
remaining iterations. -/
theorem fetchAux_eq_max (total : Nat) :
    ∀ (fuel k : Nat), (total + 9) / 10 ≤ k + fuel →
      fetchAux total fuel k = max k ((total + 9) / 10) := by
  intro fuel
  induction fuel with
  | zero =>
      intro k hk
      simp only [Nat.add_zero] at hk
      simp [fetchAux, Nat.max_eq_left hk]
  | succ n ih =>
      intro k hk
      by_cases h : k * 10 < total
      · have hstep : fetchAux total (n + 1) k = fetchAux total n (k + 1) := by
          simp [fetchAux, getNextPageParam, h]
        rw [hstep, ih (k + 1) (by omega)]
        have hklt : k < (total + 9) / 10 := by omega
        omega
      · have hstep : fetchAux total (n + 1) k = k := by
          simp [fetchAux, getNextPageParam, h]
        rw [hstep]
        have hge : (total + 9) / 10 ≤ k := by omega
        omega

/-- Counterexample to C10: with a server total of 0, the infinite query still fetches
one page (the initial fetch is unconditional), while `⌈0/10⌉ = 0`. -/
theorem infiniteQuery_total_zero_fetches_one :
    pagesFetched 0 = 1 ∧ (0 + 9) / 10 = 0 ∧ (1 : Nat) ≠ 0 := by
  decide

/-- C10 (amended): a next page is reported iff `pages × 10 < total`; the next offset
requested is always exactly ten times the pages already fetched; and fetching stops
after `max 1 ⌈total/10⌉` pages — exactly `⌈total/10⌉` whenever `total ≥ 1`, whereas at
`total = 0` the unconditional initial fetch still loads one page. -/
theorem infiniteQuery_pagination :
    (∀ total numPages : Nat,
        (getNextPageParam total numPages).isSome = true ↔ numPages * 10 < total)
    ∧ (∀ total numPages offset : Nat,
        getNextPageParam total numPages = some offset → offset = 10 * numPages)
    ∧ (∀ total : Nat, pagesFetched total = max 1 ((total + 9) / 10))
    ∧ (∀ total : Nat, 1 ≤ total → pagesFetched total = (total + 9) / 10) := by
  refine ⟨?_, ?_, ?_, ?_⟩
  · intro total numPages
    unfold getNextPageParam
    by_cases h : numPages * 10 < total <;> simp [h]
  · intro total numPages offset h
    unfold getNextPageParam at h
    by_cases hc : numPages * 10 < total
    · simp [hc] at h
      omega
    · simp [hc] at h
  · intro total
    unfold pagesFetched
    exact fetchAux_eq_max total total 1 (by omega)
  · intro total htotal
    unfold pagesFetched
    rw [fetchAux_eq_max total total 1 (by omega)]
    have : 1 ≤ (total + 9) / 10 := by omega
    omega

/-- Witness for C10 (amended): with total 25 the second page is requested at offset 10
and fetching stops after 3 pages. -/
theorem infiniteQuery_pagination_witness :
    (10 : Nat) = 10 * 1 ∧ pagesFetched 25 = (25 + 9) / 10 :=
  ⟨infiniteQuery_pagination.2.1 25 1 10 (by decide),
    infiniteQuery_pagination.2.2.2 25 (by decide)⟩
